import Mathlib

/-!
# HR-Check-In: verification of the attendance ledger and hall-pass engine

Shallow embedding of the core logic of `src/app.py` (a Flask attendance /
hall-pass application).  Pure data is modelled directly; the spreadsheet files
and the SQLite table become explicit functional state (`Option (List LedgerRow)`
for a day's workbook, `List HallPass` for the `hall_passes` table).  Timestamps
are modelled as absolute instants in whole seconds (`Nat`): in the source every
subtraction happens between two timezone-aware `datetime` objects (or inside
SQLite's own `datetime` arithmetic), and subtraction of aware datetimes is
exactly subtraction of the underlying instants.  Python floats in the analytics
are modelled as exact rationals (`ℚ`): the analytics only divides and rescales,
and the properties at stake are the algebraic relations between those values.
-/

set_option maxHeartbeats 1000000

namespace HRCheckIn

/-! ## Python `str.strip()` -/

/-- Model of Python `str.strip()` on a list of characters: drop whitespace from
both ends. -/
def stripChars (l : List Char) : List Char :=
  ((l.dropWhile Char.isWhitespace).reverse.dropWhile Char.isWhitespace).reverse

/-- Model of Python `str.strip()` (`.str.strip()` on roster columns,
`str(row[0]).strip()` on ledger cells, …). -/
def pyStrip (s : String) : String :=
  ⟨stripChars s.data⟩

structure Student where
  name : String
  sNumber : String
deriving DecidableEq, Repr

/-! ## Daily attendance ledger (`attendance_<class>_<day>.xlsx`)

A workbook is its data rows (the header row and the embedded photo cell are
presentation only).  `Option` distinguishes "file does not exist yet" from an
existing, possibly empty, workbook. -/

structure LedgerRow where
  s_number : String
  name : String
  timestamp : String
  photo_path : String
deriving DecidableEq, Repr

/-- `ensure_workbook(path)`: load the workbook if the file exists, otherwise
create a fresh empty one **and save it**.  First component: the worksheet rows;
second component: the state of the file after the call. -/
def ensure_workbook (file : Option (List LedgerRow)) :
    List LedgerRow × Option (List LedgerRow) :=
  match file with
  | some rows => (rows, some rows)
  | none => ([], some [])

/-- `already_checked_in(ws, s_number)`: scan the data rows and compare the
stripped stored id against the (already stripped) incoming id. -/
def already_checked_in (rows : List LedgerRow) (s_number : String) : Bool :=
  rows.any (fun r => pyStrip r.s_number = s_number)

/-- `first_name(full_name)`: first whitespace-separated word of the name
(empty for an empty name). -/
def first_name (full_name : String) : String :=
  (((full_name.split (fun c => c = ' ')).filter (fun w => w ≠ "")).headD "")

/-- Reply of the `/checkin` route (JSON payloads abstracted to their
discriminating content). -/
inductive CheckinReply
  | missingSNumber
  | badPhoto
  | notFound
  | already (firstName : String)
  | new (firstName : String)
deriving DecidableEq, Repr

/-- The `/checkin` route, acting on one class's roster and the state of
today's workbook file.  `photo_ok` stands for the
`photo_data_url.startswith("data:image/")` guard; `timestamp` and
`photo_path` are the opaque strings the route would write into the new row.
Returns the JSON reply and the file state after the call. -/
def checkin (roster : List Student) (file : Option (List LedgerRow))
    (s_number_raw : String) (photo_ok : Bool) (timestamp photo_path : String) :
    CheckinReply × Option (List LedgerRow) :=
  let s_number := pyStrip s_number_raw
  if s_number = "" then (.missingSNumber, file)
  else if ¬ photo_ok then (.badPhoto, file)
  else
    match roster.filter (fun st => pyStrip st.sNumber = s_number) with
    | [] => (.notFound, file)
    | st :: _ =>
      let fname := first_name st.name
      let rows := (ensure_workbook file).1
      if already_checked_in rows s_number then
        (.already fname, (ensure_workbook file).2)
      else
        (.new fname, some (rows ++ [⟨s_number, st.name, timestamp, photo_path⟩]))

/-! ## Hall passes (`hall_passes` SQLite table)

One row of the table.  `check_out_time` / `check_in_time` are the instants the
stored `datetime('now')` strings denote, in whole seconds.  `expected_duration`
is stored exactly as supplied by the client (the route performs no validation),
hence `Int`. -/

inductive PassStatus
  | active
  | overdue
  | completed
deriving DecidableEq, Repr

structure HallPass where
  id : Nat
  class_id : String
  s_number : String
  name : String
  check_out_time : Nat
  expected_duration : Int
  check_out_photo : Option String
  check_out_reason : String
  check_in_time : Option Nat
  check_in_photo : Option String
  check_in_notes : Option String
  actual_duration : Option Nat
  status : PassStatus
deriving DecidableEq, Repr

/-- `SELECT ... WHERE class_id = ? AND s_number = ? AND status = 'active'
ORDER BY check_out_time DESC LIMIT 1`: keep the latest (by checkout time)
matching row, if any.  Note the query matches only `'active'`, not
`'overdue'`. -/
def get_active_hall_pass (db : List HallPass) (class_id s_number : String) :
    Option HallPass :=
  (db.filter (fun p =>
      p.class_id = class_id ∧ p.s_number = s_number ∧ p.status = .active)).foldl
    (fun acc p =>
      match acc with
      | none => some p
      | some q => if q.check_out_time < p.check_out_time then some p else some q)
    none

/-- `lastrowid` of an autoincrementing insert: one more than the largest id. -/
def nextRowId (db : List HallPass) : Nat :=
  (db.map (fun p => p.id)).foldr max 0 + 1

/-- `record_hall_pass_checkout`: re-resolve the student in the roster (raising
if absent), then `INSERT` a fresh `'active'` row with `check_out_time = now`.
Returns the new row id and the new table state. -/
def record_hall_pass_checkout (roster : List Student) (db : List HallPass)
    (class_id s_number : String) (photo_path : Option String) (reason : String)
    (duration : Int) (now : Nat) : Except String (Nat × List HallPass) :=
  match roster.filter (fun st => pyStrip st.sNumber = pyStrip s_number) with
  | [] => .error "Student not found in roster"
  | st :: _ =>
    let pid := nextRowId db
    .ok (pid, db ++ [{ id := pid, class_id := class_id, s_number := s_number,
                       name := st.name, check_out_time := now,
                       expected_duration := duration,
                       check_out_photo := photo_path,
                       check_out_reason := reason,
                       check_in_time := none, check_in_photo := none,
                       check_in_notes := none, actual_duration := none,
                       status := .active }])

/-- `SELECT * FROM hall_passes WHERE id = ?`. -/
def lookupPass (db : List HallPass) (pid : Nat) : Option HallPass :=
  db.find? (fun p => p.id = pid)

/-- `record_hall_pass_checkin`: fetch the pass's checkout time (raising if the
id is unknown), compute `actual_duration = int((now − checkout) / 60)` —
both operands are timezone-aware datetimes in the source, so the subtraction
is subtraction of instants — then `UPDATE` the row: check-in fields filled,
status set to `'completed'`. -/
def record_hall_pass_checkin (db : List HallPass) (pid : Nat)
    (photo_path : Option String) (notes : String) (now : Nat) :
    Except String (List HallPass) :=
  match lookupPass db pid with
  | none => .error "Hall pass not found"
  | some fetched =>
    let actual := (now - fetched.check_out_time) / 60
    .ok (db.map (fun p =>
      if p.id = pid then
        { p with check_in_time := some now, check_in_photo := photo_path,
                 check_in_notes := some notes, actual_duration := some actual,
                 status := .completed }
      else p))

/-- Deadline of a pass: `datetime(check_out_time, '+expected_duration minutes')`
as an instant (seconds). -/
def pass_deadline (p : HallPass) : Int :=
  (p.check_out_time : Int) + 60 * p.expected_duration

/-- `update_overdue_passes`:
`UPDATE hall_passes SET status='overdue' WHERE status='active' AND
datetime('now') > datetime(check_out_time, '+' || expected_duration || ' minutes')`.
The modifier string carries a hard-coded leading `'+'`, so for a negative
stored duration the concatenation (e.g. `'+-5 minutes'`) is not a valid SQLite
modifier: `datetime(...)` returns NULL, the `>` comparison is NULL, and the
row is **not** updated.  A row is therefore flipped exactly when it is
`active`, its stored duration is non-negative, and its deadline has passed. -/
def update_overdue_passes (now : Nat) (db : List HallPass) : List HallPass :=
  db.map (fun p =>
    if p.status = .active ∧ 0 ≤ p.expected_duration ∧ pass_deadline p < (now : Int) then
      { p with status := .overdue }
    else p)

/-! ## Hall-pass HTTP routes -/

/-- Request body of `/api/hall-pass/checkout`; `none` models an absent JSON
field (Python `data.get(...) is None`). -/
structure CheckoutRequest where
  class_id : Option String
  s_number : Option String
  reason : Option String
  duration : Option Int
  image_data_url : Option String
deriving DecidableEq, Repr

/-- Python truthiness of an optional string field. -/
def truthy (o : Option String) : Bool :=
  match o with
  | none => false
  | some s => s ≠ ""

inductive CheckoutReply
  | missingFields
  | notInRoster
  | alreadyActive (conflicting : HallPass)
  | failed
  | ok (pass_id : Nat) (student_name : String)
deriving DecidableEq, Repr

/-- The `/api/hall-pass/checkout` route.  Field presence check
(`not all([class_id, s_number, reason, image_data_url])` — `duration` is *not*
checked and defaults to `10` when absent), roster validation, the
active-pass conflict check, then the insert.  The checkout photo is abstracted
to an opaque optional path. -/
def hall_pass_checkout (roster : List Student) (db : List HallPass) (now : Nat)
    (req : CheckoutRequest) (photo_path : Option String) :
    CheckoutReply × List HallPass :=
  let class_id := req.class_id.getD ""
  let s_number := req.s_number.getD ""
  let reason := req.reason.getD ""
  let duration := req.duration.getD 10
  if ¬ (truthy req.class_id ∧ truthy req.s_number ∧ truthy req.reason ∧
        truthy req.image_data_url) then
    (.missingFields, db)
  else
    match roster.filter (fun st => pyStrip st.sNumber = pyStrip s_number) with
    | [] => (.notInRoster, db)
    | st :: _ =>
      match get_active_hall_pass db class_id s_number with
      | some p => (.alreadyActive p, db)
      | none =>
        match record_hall_pass_checkout roster db class_id s_number photo_path
            reason duration now with
        | .ok (pid, db2) => (.ok pid st.name, db2)
        | .error _ => (.failed, db)

inductive CheckinPassReply
  | missingPassId
  | notFound
  | notActive
  | failed
  | success (photo_path : Option String)
deriving DecidableEq, Repr

/-- The `/api/hall-pass/checkin` route: fetch the pass by id, reject a missing
pass (`404`) and any pass whose status is not exactly `'active'` (`400`,
"Hall pass is not active"), then record the check-in. -/
def hall_pass_checkin (db : List HallPass) (pass_id : Option Nat)
    (photo_path : Option String) (notes : String) (now : Nat) :
    CheckinPassReply × List HallPass :=
  match pass_id with
  | none => (.missingPassId, db)
  | some pid =>
    match lookupPass db pid with
    | none => (.notFound, db)
    | some p =>
      if p.status ≠ .active then (.notActive, db)
      else
        match record_hall_pass_checkin db pid photo_path notes now with
        | .ok db2 => (.success photo_path, db2)
        | .error _ => (.failed, db)

/-- Number of passes for `(class_id, s_number)` whose status is `active` or
`overdue` — the quantity the single-active-pass invariant speaks about. -/
def activeOrOverdueCount (db : List HallPass) (class_id s_number : String) : Nat :=
  db.countP (fun p => p.class_id = class_id ∧ p.s_number = s_number ∧
    (p.status = .active ∨ p.status = .overdue))

/-! ## Roster loading (`load_roster`)

`config.json` holds a list of class configurations plus a default class id;
the per-class roster spreadsheets live in the data directory.  The file system
is modelled as an association list from roster path to the raw file content: a
file may be missing, unreadable by `pd.read_excel`, or a parsed table of
columns whose headers still need alias resolution. -/

structure RecEntry where
  name : String
  s_number : String
  present_count : Nat
  absent_count : Nat
deriving DecidableEq, Repr

/-- `student_records[s_num] = {...}` on an insertion-ordered dict: overwrite in
place when the key is present, append otherwise. -/
def dict_insert (e : RecEntry) : List RecEntry → List RecEntry
  | [] => [e]
  | f :: rest =>
    if f.s_number = e.s_number then e :: rest else f :: dict_insert e rest

/-- The loop `for _, student in roster.iterrows(): student_records[s_num] = {... 0, 0}`. -/
def init_records (roster : List Student) : List RecEntry :=
  roster.foldl (fun recs st => dict_insert ⟨st.name, st.sNumber, 0, 0⟩ recs) []

/-- `s_num in present_on_date`: some first-column cell is truthy and strips to
the key. -/
def present_on (rows : List String) (key : String) : Bool :=
  rows.any (fun r => r ≠ "" ∧ pyStrip r = key)

/-- One iteration of the date loop: a missing workbook is skipped, an existing
one increments each student's present or absent count. -/
def apply_day (day : Option (List String)) (recs : List RecEntry) :
    List RecEntry :=
  match day with
  | none => recs
  | some rows =>
    recs.map (fun e =>
      if present_on rows e.s_number then
        { e with present_count := e.present_count + 1 }
      else
        { e with absent_count := e.absent_count + 1 })

structure StudentStat where
  name : String
  s_number : String
  present_count : Nat
  absent_count : Nat
  attendance_rate : ℚ
deriving DecidableEq, Repr

structure AnalyticsResult where
  total_sessions : Nat
  total_students : Nat
  avg_attendance : ℚ
  students : List StudentStat
deriving DecidableEq, Repr

/-- Stable insertion into a list sorted ascending by name (Python's stable
`list.sort(key=lambda x: x["name"])`). -/
def insert_by_name (x : StudentStat) : List StudentStat → List StudentStat
  | [] => [x]
  | y :: ys => if y.name ≤ x.name then y :: insert_by_name x ys else x :: y :: ys

def sort_by_name (l : List StudentStat) : List StudentStat :=
  l.foldl (fun acc x => insert_by_name x acc) []

/-- `calculate_analytics(roster, available_dates)` over the modelled ledger
store.  Float arithmetic is modelled exactly in `ℚ`. -/
def calculate_analytics (roster : List Student)
    (days : List (Option (List String))) : AnalyticsResult :=
  let total_sessions := days.length
  let total_students := roster.length
  let recs := days.foldl (fun r d => apply_day d r) (init_records roster)
  let stats := recs.map (fun e =>
    let rate : ℚ :=
      if 0 < total_sessions then
        ((e.present_count : ℚ) / (total_sessions : ℚ)) * 100
      else 0
    ({ name := e.name, s_number := e.s_number,
       present_count := e.present_count, absent_count := e.absent_count,
       attendance_rate := rate } : StudentStat))
  let total_attendance : ℚ := (stats.map (fun s => s.attendance_rate)).sum
  let avg : ℚ :=
    if 0 < total_students then total_attendance / (total_students : ℚ) else 0
  { total_sessions := total_sessions, total_students := total_students,
    avg_attendance := avg, students := sort_by_name stats }

/-! ## Helper lemmas -/

theorem stripChars_eq_rdropWhile (l : List Char) :
    stripChars l =
      List.rdropWhile Char.isWhitespace (l.dropWhile Char.isWhitespace) := rfl

theorem dropWhile_eq_cons_head_false (p : α → Bool) :
    ∀ (l : List α) (x : α) (xs : List α), l.dropWhile p = x :: xs → p x = false
  | [], _, _, h => by simp at h
  | y :: ys, x, xs, h => by
    rw [List.dropWhile_cons] at h
    by_cases hp : p y = true
    · rw [if_pos hp] at h
      exact dropWhile_eq_cons_head_false p ys x xs h
    · rw [if_neg hp] at h
      injection h with h1 _
      subst h1
      simpa using hp

theorem stripChars_idempotent (l : List Char) :
    stripChars (stripChars l) = stripChars l := by
  rw [stripChars_eq_rdropWhile, stripChars_eq_rdropWhile]
  have h1 : (List.rdropWhile Char.isWhitespace
      (l.dropWhile Char.isWhitespace)).dropWhile Char.isWhitespace =
      List.rdropWhile Char.isWhitespace (l.dropWhile Char.isWhitespace) := by
    cases hb : List.rdropWhile Char.isWhitespace (l.dropWhile Char.isWhitespace) with
    | nil => rfl
    | cons x xs =>
      have hpre := List.rdropWhile_prefix (p := Char.isWhitespace)
          (l := l.dropWhile Char.isWhitespace)
      rw [hb] at hpre
      obtain ⟨t, ht⟩ := hpre
      have ha2 : (l.dropWhile Char.isWhitespace).dropWhile Char.isWhitespace =
          l.dropWhile Char.isWhitespace := List.dropWhile_idempotent _ _
      rw [← ht] at ha2
      have hx : Char.isWhitespace x = false := by simpa using ha2
      rw [List.dropWhile_cons, if_neg (by simp [hx])]
  rw [h1, List.rdropWhile_idempotent]

theorem pyStrip_idempotent (s : String) : pyStrip (pyStrip s) = pyStrip s := by
  show String.mk (stripChars (String.mk (stripChars s.data)).data) = _
  exact congrArg String.mk (stripChars_idempotent s.data)

/-! ## Claim theorems -/

/-- **C1** — Idempotent check-in: a first successful `checkin` for a roster
member appends exactly one record for that member and day; a second `checkin`
for the same member (any timestamp / evidence) replies `"already"`, leaves the
ledger file unchanged, and exactly one record for the member remains. -/
theorem checkin_idempotent (roster : List Student) (file : Option (List LedgerRow))
    (s ts1 pp1 ts2 pp2 : String)
    (hs : pyStrip s ≠ "")
    (hmem : roster.filter (fun st => pyStrip st.sNumber = pyStrip s) ≠ [])
    (hnew : already_checked_in (ensure_workbook file).1 (pyStrip s) = false) :
    ∃ fname row,
      checkin roster file s true ts1 pp1
        = (.new fname, some ((ensure_workbook file).1 ++ [row]))
      ∧ row.s_number = pyStrip s ∧ row.timestamp = ts1 ∧ row.photo_path = pp1
      ∧ checkin roster (some ((ensure_workbook file).1 ++ [row])) s true ts2 pp2
          = (.already fname, some ((ensure_workbook file).1 ++ [row]))
      ∧ ((ensure_workbook file).1 ++ [row]).countP
          (fun r => pyStrip r.s_number = pyStrip s) = 1 := by
  cases hfil : roster.filter (fun st => pyStrip st.sNumber = pyStrip s) with
  | nil => exact absurd hfil hmem
  | cons st rest =>
    refine ⟨first_name st.name, ⟨pyStrip s, st.name, ts1, pp1⟩, ?_, rfl, rfl, rfl, ?_, ?_⟩
    · simp [checkin, hs, hfil, hnew]
    · simp [checkin, hs, hfil, already_checked_in, ensure_workbook,
        pyStrip_idempotent]
    · rw [List.countP_append, List.countP_eq_zero.mpr, Nat.zero_add]
      · simp [pyStrip_idempotent]
      · intro r hr
        simp only [already_checked_in, List.any_eq_false, decide_eq_true_eq] at hnew
        simpa using hnew r hr

/-- **C1 witness**: concrete run on a one-member roster and a missing ledger
file. -/
theorem checkin_idempotent_witness :
    ∃ fname row,
      checkin [⟨"Ada Lovelace", "101"⟩] none "101" true "t1" "p1"
        = (.new fname, some ((ensure_workbook none).1 ++ [row]))
      ∧ row.s_number = pyStrip "101" ∧ row.timestamp = "t1" ∧ row.photo_path = "p1"
      ∧ checkin [⟨"Ada Lovelace", "101"⟩]
          (some ((ensure_workbook none).1 ++ [row])) "101" true "t2" "p2"
          = (.already fname, some ((ensure_workbook none).1 ++ [row]))
      ∧ ((ensure_workbook none).1 ++ [row]).countP
          (fun r => pyStrip r.s_number = pyStrip "101") = 1 :=
  checkin_idempotent [⟨"Ada Lovelace", "101"⟩] none "101" "t1" "p1" "t2" "p2"
    (by decide) (by decide) (by decide)

/-- **C10** — Frame property of the `"already"` path: when the member is
already present in the day's ledger, `checkin` replies `"already"` and the
file state after the call is exactly the state `ensure_workbook` left behind —
unchanged when the workbook existed, a freshly created empty workbook when it
did not. -/
theorem checkin_already_frame (roster : List Student) (file : Option (List LedgerRow))
    (s ts pp : String)
    (hs : pyStrip s ≠ "")
    (hmem : roster.filter (fun st => pyStrip st.sNumber = pyStrip s) ≠ [])
    (halready : already_checked_in (ensure_workbook file).1 (pyStrip s) = true) :
    ∃ fname,
      checkin roster file s true ts pp = (.already fname, (ensure_workbook file).2)
      ∧ (∀ rows, file = some rows →
          checkin roster file s true ts pp = (.already fname, some rows))
      ∧ (file = none → checkin roster file s true ts pp = (.already fname, some [])) := by
  cases hfil : roster.filter (fun st => pyStrip st.sNumber = pyStrip s) with
  | nil => exact absurd hfil hmem
  | cons st rest =>
    refine ⟨first_name st.name, ?_, ?_, ?_⟩
    · simp [checkin, hs, hfil, halready]
    · intro rows hrows
      subst hrows
      simp_all [checkin, hs, hfil, ensure_workbook]
    · intro hnone
      subst hnone
      simp_all [checkin, hs, hfil, ensure_workbook]

/-- **C10 witness**: concrete run where the ledger file exists and already
holds the member's record. -/
theorem checkin_already_frame_witness :
    ∃ fname,
      checkin [⟨"Ada Lovelace", "101"⟩]
          (some [⟨"101", "Ada Lovelace", "t1", "p1"⟩]) "101" true "t2" "p2"
        = (.already fname,
            (ensure_workbook (some [⟨"101", "Ada Lovelace", "t1", "p1"⟩])).2)
      ∧ (∀ rows, (some [⟨"101", "Ada Lovelace", "t1", "p1"⟩] :
            Option (List LedgerRow)) = some rows →
          checkin [⟨"Ada Lovelace", "101"⟩]
              (some [⟨"101", "Ada Lovelace", "t1", "p1"⟩]) "101" true "t2" "p2"
            = (.already fname, some rows))
      ∧ ((some [⟨"101", "Ada Lovelace", "t1", "p1"⟩] :
            Option (List LedgerRow)) = none →
          checkin [⟨"Ada Lovelace", "101"⟩]
              (some [⟨"101", "Ada Lovelace", "t1", "p1"⟩]) "101" true "t2" "p2"
            = (.already fname, some [])) :=
  checkin_already_frame [⟨"Ada Lovelace", "101"⟩]
    (some [⟨"101", "Ada Lovelace", "t1", "p1"⟩]) "101" "t2" "p2"
    (by decide) (by decide) (by decide)

/-- **C5 counterexample**: an `active` pass with a negative stored duration
(reachable: the checkout route records such durations unvalidated) whose
nominal deadline `checkOutTime + expectedDurationMinutes` has long passed is
*never* flipped to `overdue` — the concatenated SQLite modifier is invalid for
a negative duration, so `datetime(...)` is NULL and the `WHERE` clause never
matches — refuting the claim that the sweep flips exactly the active passes
whose deadline has passed. -/
theorem overdue_negative_duration_cex :
    pass_deadline
        ⟨1, "c1", "101", "Ada", 0, -5, none, "r", none, none, none, none, .active⟩
      < (10000 : Int)
    ∧ update_overdue_passes 10000
        [⟨1, "c1", "101", "Ada", 0, -5, none, "r", none, none, none, none, .active⟩]
      = [⟨1, "c1", "101", "Ada", 0, -5, none, "r", none, none, none, none, .active⟩] := by
  constructor
  · decide
  · decide

/-- **C5 (amended)** — Overdue monotonicity and idempotence:
`update_overdue_passes` flips exactly the `active` passes with a
**non-negative** stored duration whose deadline has passed (an active pass
with a negative duration is never flipped, because the SQLite duration
modifier is NULL for it); it touches no `overdue` or `completed` pass (so no
pass ever goes back from `overdue` to `active`), and running it twice at the
same instant equals running it once. -/
theorem overdue_monotone_idempotent (now : Nat) (db : List HallPass) :
    update_overdue_passes now (update_overdue_passes now db)
      = update_overdue_passes now db
    ∧ (update_overdue_passes now db).length = db.length
    ∧ ∀ (i : Nat) (h : i < db.length),
        ((db.get ⟨i, h⟩).status ≠ .active →
          (update_overdue_passes now db)[i]? = some (db.get ⟨i, h⟩))
        ∧ ((db.get ⟨i, h⟩).status = .active →
            0 ≤ (db.get ⟨i, h⟩).expected_duration →
            pass_deadline (db.get ⟨i, h⟩) < (now : Int) →
          (update_overdue_passes now db)[i]?
            = some { db.get ⟨i, h⟩ with status := .overdue })
        ∧ ((db.get ⟨i, h⟩).status = .active →
            0 ≤ (db.get ⟨i, h⟩).expected_duration →
            ¬ pass_deadline (db.get ⟨i, h⟩) < (now : Int) →
          (update_overdue_passes now db)[i]? = some (db.get ⟨i, h⟩))
        ∧ ((db.get ⟨i, h⟩).status = .active →
            (db.get ⟨i, h⟩).expected_duration < 0 →
          (update_overdue_passes now db)[i]? = some (db.get ⟨i, h⟩)) := by
  refine ⟨?_, ?_, ?_⟩
  · unfold update_overdue_passes
    rw [List.map_map]
    apply List.map_congr_left
    intro p _
    by_cases hp : p.status = .active ∧ 0 ≤ p.expected_duration ∧
        pass_deadline p < (now : Int)
    · simp only [Function.comp_apply, if_pos hp]
      rw [if_neg]
      rintro ⟨hc, -⟩
      simp at hc
    · simp only [Function.comp_apply, if_neg hp, if_neg hp]
  · simp [update_overdue_passes]
  · intro i h
    have hx : (update_overdue_passes now db)[i]?
        = some (if (db.get ⟨i, h⟩).status = .active ∧
                  0 ≤ (db.get ⟨i, h⟩).expected_duration ∧
                  pass_deadline (db.get ⟨i, h⟩) < (now : Int) then
                { db.get ⟨i, h⟩ with status := .overdue } else db.get ⟨i, h⟩) := by
      unfold update_overdue_passes
      rw [List.getElem?_map, List.getElem?_eq_getElem h]
      simp [List.get_eq_getElem]
    refine ⟨?_, ?_, ?_, ?_⟩
    · intro hna
      rw [hx, if_neg]
      rintro ⟨hc, -⟩
      exact hna hc
    · intro ha hd0 hd
      rw [hx, if_pos ⟨ha, hd0, hd⟩]
    · intro ha hd0 hd
      rw [hx, if_neg]
      rintro ⟨-, -, hc⟩
      exact hd hc
    · intro ha hneg
      rw [hx, if_neg]
      rintro ⟨-, hc, -⟩
      omega

/-- **C5 witness**: a concrete active, expired, non-negative-duration pass
flips to `overdue`, and re-running the sweep changes nothing. -/
theorem overdue_monotone_idempotent_witness :
    update_overdue_passes 10000 (update_overdue_passes 10000
        [⟨1, "c1", "101", "Ada", 1000, 10, none, "r", none, none, none, none, .active⟩])
      = update_overdue_passes 10000
        [⟨1, "c1", "101", "Ada", 1000, 10, none, "r", none, none, none, none, .active⟩]
    ∧ (update_overdue_passes 10000
        [⟨1, "c1", "101", "Ada", 1000, 10, none, "r", none, none, none, none, .active⟩])[0]?
      = some ⟨1, "c1", "101", "Ada", 1000, 10, none, "r", none, none, none, none, .overdue⟩ := by
  have h := overdue_monotone_idempotent 10000
    [⟨1, "c1", "101", "Ada", 1000, 10, none, "r", none, none, none, none, .active⟩]
  exact ⟨h.1, (h.2.2 0 (by decide)).2.1 (by decide) (by decide) (by decide)⟩

/-- **C3 counterexample**: checking in a pass whose status is `overdue` does
*not* succeed — the route replies "Hall pass is not active" and leaves the
pass overdue, refuting the claim that checkin from `overdue` completes the
pass. -/
theorem checkin_overdue_rejected_cex :
    hall_pass_checkin
        [⟨1, "c1", "101", "Ada", 0, 10, none, "r", none, none, none, none, .overdue⟩]
        (some 1) none "notes" 10000
      = (.notActive,
         [⟨1, "c1", "101", "Ada", 0, 10, none, "r", none, none, none, none, .overdue⟩]) := by
  decide

/-- **C3 (amended)** — Checkin succeeds if and only if the pass exists and its
status is exactly `active`: a missing pass id fails with `PassNotFound`, and a
pass whose status is `overdue` or `completed` (anything but `active`) fails
with `PassNotActive`; on success the pass becomes `completed`. -/
theorem checkin_requires_active (db : List HallPass) (pid : Nat)
    (photo : Option String) (notes : String) (now : Nat) :
    (lookupPass db pid = none →
      hall_pass_checkin db (some pid) photo notes now = (.notFound, db))
    ∧ (∀ p, lookupPass db pid = some p → p.status ≠ .active →
      hall_pass_checkin db (some pid) photo notes now = (.notActive, db))
    ∧ (∀ p, lookupPass db pid = some p → p.status = .active →
      hall_pass_checkin db (some pid) photo notes now
        = (.success photo,
           db.map (fun q =>
             if q.id = pid then
               { q with check_in_time := some now, check_in_photo := photo,
                        check_in_notes := some notes,
                        actual_duration := some ((now - p.check_out_time) / 60),
                        status := .completed }
             else q))) := by
  refine ⟨?_, ?_, ?_⟩
  · intro hlk
    simp [hall_pass_checkin, hlk]
  · intro p hlk hst
    simp [hall_pass_checkin, hlk, hst]
  · intro p hlk hst
    simp [hall_pass_checkin, record_hall_pass_checkin, hlk, hst]

/-- **C3 witness**: concrete active pass checked in successfully. -/
theorem checkin_requires_active_witness :
    hall_pass_checkin
        [⟨1, "c1", "101", "Ada", 1000, 10, none, "r", none, none, none, none, .active⟩]
        (some 1) none "n" 1930
      = (.success none,
         [⟨1, "c1", "101", "Ada", 1000, 10, none, "r", none, none, none, none,
           .active⟩].map (fun q =>
           if q.id = 1 then
             { q with check_in_time := some 1930, check_in_photo := none,
                      check_in_notes := some "n",
                      actual_duration := some ((1930 - 1000) / 60),
                      status := .completed }
           else q)) :=
  (checkin_requires_active
    [⟨1, "c1", "101", "Ada", 1000, 10, none, "r", none, none, none, none, .active⟩]
    1 none "n" 1930).2.2
    ⟨1, "c1", "101", "Ada", 1000, 10, none, "r", none, none, none, none, .active⟩
    (by decide) (by decide)

/-- **C6** — Duration correctness: checking in `k` minutes (plus a sub-minute
remainder `r`) after checkout records `actual_duration = k`, the elapsed
wall-clock time rounded down to whole minutes.  Timestamps are instants
(both operands of the subtraction in the source are timezone-aware datetimes
converted to the same zone), so the result depends only on the elapsed
seconds, never on calendar-day or DST boundaries crossed in between. -/
theorem duration_correct (db : List HallPass) (pid : Nat) (p : HallPass)
    (photo : Option String) (notes : String) (t0 k r : Nat)
    (hlk : lookupPass db pid = some p) (hact : p.status = .active)
    (ht0 : p.check_out_time = t0) (hr : r < 60) :
    hall_pass_checkin db (some pid) photo notes (t0 + (60 * k + r))
      = (.success photo,
         db.map (fun q =>
           if q.id = pid then
             { q with check_in_time := some (t0 + (60 * k + r)),
                      check_in_photo := photo,
                      check_in_notes := some notes,
                      actual_duration := some k,
                      status := .completed }
           else q)) := by
  have hdur : (t0 + (60 * k + r) - p.check_out_time) / 60 = k := by
    rw [ht0, Nat.add_sub_cancel_left, Nat.mul_add_div (by norm_num),
      Nat.div_eq_of_lt hr, Nat.add_zero]
  simp [hall_pass_checkin, record_hall_pass_checkin, hlk, hact, hdur]

/-- **C6 witness**: checkout at instant 1000, checkin 15 min 30 s later yields
`actual_duration = 15`. -/
theorem duration_correct_witness :
    hall_pass_checkin
        [⟨1, "c1", "101", "Ada", 1000, 10, none, "r", none, none, none, none, .active⟩]
        (some 1) none "n" (1000 + (60 * 15 + 30))
      = (.success none,
         [⟨1, "c1", "101", "Ada", 1000, 10, none, "r", none, none, none, none,
           .active⟩].map (fun q =>
           if q.id = 1 then
             { q with check_in_time := some (1000 + (60 * 15 + 30)),
                      check_in_photo := none,
                      check_in_notes := some "n",
                      actual_duration := some 15,
                      status := .completed }
           else q)) :=
  duration_correct
    [⟨1, "c1", "101", "Ada", 1000, 10, none, "r", none, none, none, none, .active⟩]
    1 ⟨1, "c1", "101", "Ada", 1000, 10, none, "r", none, none, none, none, .active⟩
    none "n" 1000 15 30 (by decide) (by decide) (by decide) (by decide)

theorem get_active_foldl_ne_none (l : List HallPass) :
    ∀ (q : HallPass),
      l.foldl (fun acc p =>
        match acc with
        | none => some p
        | some q => if q.check_out_time < p.check_out_time then some p else some q)
        (some q) ≠ none := by
  induction l with
  | nil =>
    intro q hq
    exact Option.noConfusion hq
  | cons p rest ih =>
    intro q
    rw [List.foldl_cons]
    show rest.foldl _
      (if q.check_out_time < p.check_out_time then some p else some q) ≠ none
    by_cases hlt : q.check_out_time < p.check_out_time
    · rw [if_pos hlt]; exact ih p
    · rw [if_neg hlt]; exact ih q

/-- `get_active_hall_pass` returns `none` exactly when no `'active'` row
matches the class and student. -/
theorem get_active_eq_none_iff (db : List HallPass) (c s : String) :
    get_active_hall_pass db c s = none
      ↔ ∀ p ∈ db, ¬ (p.class_id = c ∧ p.s_number = s ∧ p.status = .active) := by
  unfold get_active_hall_pass
  cases hf : db.filter (fun p =>
      p.class_id = c ∧ p.s_number = s ∧ p.status = .active) with
  | nil =>
    constructor
    · intro _ p hp hcond
      have hmem : p ∈ db.filter (fun p =>
          p.class_id = c ∧ p.s_number = s ∧ p.status = .active) :=
        List.mem_filter.mpr ⟨hp, by simpa using hcond⟩
      rw [hf] at hmem
      exact absurd hmem (List.not_mem_nil p)
    · intro _
      rfl
  | cons p rest =>
    constructor
    · intro h
      exfalso
      rw [List.foldl_cons] at h
      exact get_active_foldl_ne_none rest p h
    · intro hall
      exfalso
      have hp : p ∈ db.filter (fun p =>
          p.class_id = c ∧ p.s_number = s ∧ p.status = .active) := by
        rw [hf]; exact List.mem_cons_self p rest
      have hmf := List.mem_filter.mp hp
      exact hall p hmf.1 (by simpa using hmf.2)

/-- **C2 counterexample**: an existing `overdue` pass does *not* block a new
checkout — the conflict query matches only `'active'` — so a second checkout
succeeds and two passes in `{active, overdue}` coexist for the same member,
refuting the claimed invariant. -/
theorem checkout_overdue_not_blocking_cex :
    hall_pass_checkout [⟨"Ada", "101"⟩]
        [⟨1, "c1", "101", "Ada", 0, 10, none, "r", none, none, none, none, .overdue⟩]
        10000 ⟨some "c1", some "101", some "restroom", none, some "img"⟩ none
      = (.ok 2 "Ada",
         [⟨1, "c1", "101", "Ada", 0, 10, none, "r", none, none, none, none, .overdue⟩,
          ⟨2, "c1", "101", "Ada", 10000, 10, none, "restroom", none, none, none, none,
           .active⟩])
    ∧ activeOrOverdueCount
        [⟨1, "c1", "101", "Ada", 0, 10, none, "r", none, none, none, none, .overdue⟩,
         ⟨2, "c1", "101", "Ada", 10000, 10, none, "restroom", none, none, none, none,
          .active⟩] "c1" "101" = 2 := by
  constructor
  · decide
  · decide

/-- **C2 (amended)** — Single *active* pass: a checkout fails with a Conflict
(`PassAlreadyActive`) precisely when an existing pass for that member has
status `active` (an `overdue` pass does not block); starting from a state with
no pass in `{active, overdue}` for the member, a first checkout succeeds and
appends one `active` pass, and a second checkout before checkin fails with the
Conflict and leaves exactly one pass in `{active, overdue}`. -/
theorem single_active_pass (roster : List Student) (db : List HallPass)
    (now1 now2 : Nat) (c s reason img : String) (dur : Option Int)
    (photo1 photo2 : Option String)
    (hc : c ≠ "") (hs : s ≠ "") (hre : reason ≠ "") (hi : img ≠ "")
    (hmem : roster.filter (fun st => pyStrip st.sNumber = pyStrip s) ≠ [])
    (hnone : activeOrOverdueCount db c s = 0) :
    ∃ pid name p2,
      hall_pass_checkout roster db now1
          ⟨some c, some s, some reason, dur, some img⟩ photo1
        = (.ok pid name, db ++ [p2])
      ∧ p2.class_id = c ∧ p2.s_number = s ∧ p2.status = .active
      ∧ activeOrOverdueCount (db ++ [p2]) c s = 1
      ∧ (∃ q, hall_pass_checkout roster (db ++ [p2]) now2
            ⟨some c, some s, some reason, dur, some img⟩ photo2
          = (.alreadyActive q, db ++ [p2]))
      ∧ (∀ db2, (∃ p ∈ db2, p.class_id = c ∧ p.s_number = s ∧ p.status = .active) →
          ∃ q, hall_pass_checkout roster db2 now2
              ⟨some c, some s, some reason, dur, some img⟩ photo2
            = (.alreadyActive q, db2)) := by
  cases hfil : roster.filter (fun st => pyStrip st.sNumber = pyStrip s) with
  | nil => exact absurd hfil hmem
  | cons st rest =>
    have key : ∀ db2, (∃ p ∈ db2, p.class_id = c ∧ p.s_number = s ∧
        p.status = .active) →
        ∃ q, hall_pass_checkout roster db2 now2
            ⟨some c, some s, some reason, dur, some img⟩ photo2
          = (.alreadyActive q, db2) := by
      intro db2 hex
      cases hg : get_active_hall_pass db2 c s with
      | none =>
        exfalso
        obtain ⟨p, hp, hcond⟩ := hex
        exact (get_active_eq_none_iff db2 c s).mp hg p hp hcond
      | some q =>
        exact ⟨q, by simp [hall_pass_checkout, truthy, hc, hs, hre, hi, hfil, hg]⟩
    have hga : get_active_hall_pass db c s = none := by
      rw [get_active_eq_none_iff]
      intro p hp hcond
      unfold activeOrOverdueCount at hnone
      have h0 := List.countP_eq_zero.mp hnone p hp
      simp only [decide_eq_true_eq] at h0
      exact h0 ⟨hcond.1, hcond.2.1, Or.inl hcond.2.2⟩
    refine ⟨nextRowId db, st.name,
      ⟨nextRowId db, c, s, st.name, now1, dur.getD 10, photo1, reason,
       none, none, none, none, .active⟩, ?_, rfl, rfl, rfl, ?_, ?_, key⟩
    · simp [hall_pass_checkout, record_hall_pass_checkout, truthy,
        hc, hs, hre, hi, hfil, hga]
    · unfold activeOrOverdueCount
      rw [List.countP_append]
      unfold activeOrOverdueCount at hnone
      rw [hnone, Nat.zero_add]
      simp
    · exact key (db ++ [⟨nextRowId db, c, s, st.name, now1, dur.getD 10, photo1,
        reason, none, none, none, none, .active⟩])
        ⟨⟨nextRowId db, c, s, st.name, now1, dur.getD 10, photo1, reason,
          none, none, none, none, .active⟩,
         List.mem_append_right db (List.mem_singleton_self _), rfl, rfl, rfl⟩

/-- **C2 witness**: fresh member, empty pass table — first checkout succeeds,
second conflicts. -/
theorem single_active_pass_witness :
    ∃ pid name p2,
      hall_pass_checkout [⟨"Ada", "101"⟩] [] 100
          ⟨some "c1", some "101", some "restroom", none, some "img"⟩ none
        = (.ok pid name, [] ++ [p2])
      ∧ p2.class_id = "c1" ∧ p2.s_number = "101" ∧ p2.status = .active
      ∧ activeOrOverdueCount ([] ++ [p2]) "c1" "101" = 1
      ∧ (∃ q, hall_pass_checkout [⟨"Ada", "101"⟩] ([] ++ [p2]) 200
            ⟨some "c1", some "101", some "restroom", none, some "img"⟩ none
          = (.alreadyActive q, [] ++ [p2]))
      ∧ (∀ db2, (∃ p ∈ db2, p.class_id = "c1" ∧ p.s_number = "101" ∧
            p.status = .active) →
          ∃ q, hall_pass_checkout [⟨"Ada", "101"⟩] db2 200
              ⟨some "c1", some "101", some "restroom", none, some "img"⟩ none
            = (.alreadyActive q, db2)) :=
  single_active_pass [⟨"Ada", "101"⟩] [] 100 200 "c1" "101" "restroom" "img"
    none none none (by decide) (by decide) (by decide) (by decide) (by decide)
    (by decide)

/-- **C8 counterexample**: a malformed, non-positive duration (`-5` minutes)
is *not* rejected — the checkout succeeds and the pass is recorded with
`expected_duration = -5`, refuting the claim that non-positive durations fail
as `Invalid`. -/
theorem checkout_negative_duration_cex :
    hall_pass_checkout [⟨"Ada", "101"⟩] [] 100
        ⟨some "c1", some "101", some "r", some (-5), some "img"⟩ none
      = (.ok 1 "Ada",
         [⟨1, "c1", "101", "Ada", 100, -5, none, "r", none, none, none, none,
           .active⟩]) := by
  decide

/-- **C8 (amended)** — Checkout duration handling: when `duration` is absent
the checkout uses the default of 10 minutes; when it is present the supplied
value is recorded as-is with **no validation** — any integer, including zero
or negative values, is accepted. -/
theorem checkout_duration_default (roster : List Student) (db : List HallPass)
    (now : Nat) (c s reason img : String) (dur : Option Int)
    (photo : Option String)
    (hc : c ≠ "") (hs : s ≠ "") (hre : reason ≠ "") (hi : img ≠ "")
    (hmem : roster.filter (fun st => pyStrip st.sNumber = pyStrip s) ≠ [])
    (hga : get_active_hall_pass db c s = none) :
    ∃ pid name p2,
      hall_pass_checkout roster db now
          ⟨some c, some s, some reason, dur, some img⟩ photo
        = (.ok pid name, db ++ [p2])
      ∧ p2.expected_duration = dur.getD 10
      ∧ (dur = none → p2.expected_duration = 10) := by
  cases hfil : roster.filter (fun st => pyStrip st.sNumber = pyStrip s) with
  | nil => exact absurd hfil hmem
  | cons st rest =>
    refine ⟨nextRowId db, st.name,
      ⟨nextRowId db, c, s, st.name, now, dur.getD 10, photo, reason,
       none, none, none, none, .active⟩, ?_, rfl, fun h => by rw [h]; rfl⟩
    simp [hall_pass_checkout, record_hall_pass_checkout, truthy,
      hc, hs, hre, hi, hfil, hga]

/-- **C8 witness**: absent duration defaults to 10 minutes. -/
theorem checkout_duration_default_witness :
    ∃ pid name p2,
      hall_pass_checkout [⟨"Ada", "101"⟩] [] 100
          ⟨some "c1", some "101", some "r", none, some "img"⟩ none
        = (.ok pid name, [] ++ [p2])
      ∧ p2.expected_duration = (none : Option Int).getD 10
      ∧ ((none : Option Int) = none → p2.expected_duration = 10) :=
  checkout_duration_default [⟨"Ada", "101"⟩] [] 100 "c1" "101" "r" "img" none
    none (by decide) (by decide) (by decide) (by decide) (by decide) (by decide)

/-! ### Analytics helper lemmas -/

/-- The effect of one day on one record (the body of the per-student branch of
the date loop). -/
def day_step (d : Option (List String)) (e : RecEntry) : RecEntry :=
  match d with
  | none => e
  | some rows =>
    if present_on rows e.s_number then
      { e with present_count := e.present_count + 1 }
    else
      { e with absent_count := e.absent_count + 1 }

theorem apply_day_eq_map (d : Option (List String)) (recs : List RecEntry) :
    apply_day d recs = recs.map (day_step d) := by
  cases d with
  | none =>
    exact (List.map_id' recs).symm
  | some rows => rfl

theorem fold_days_eq_map (days : List (Option (List String))) :
    ∀ recs : List RecEntry,
      days.foldl (fun r d => apply_day d r) recs
        = recs.map (fun e => days.foldl (fun x d => day_step d x) e) := by
  induction days with
  | nil =>
    intro recs
    exact (List.map_id' recs).symm
  | cons d ds ih =>
    intro recs
    rw [List.foldl_cons, ih (apply_day d recs), apply_day_eq_map, List.map_map]
    rfl

theorem day_step_some (rows : List String) (e : RecEntry) :
    day_step (some rows) e
      = if present_on rows e.s_number then
          { e with present_count := e.present_count + 1 }
        else
          { e with absent_count := e.absent_count + 1 } := rfl

theorem day_step_s_number (d : Option (List String)) (e : RecEntry) :
    (day_step d e).s_number = e.s_number := by
  cases d with
  | none => rfl
  | some rows =>
    rw [day_step_some]
    by_cases h : present_on rows e.s_number = true
    · rw [if_pos h]
    · rw [if_neg h]

theorem day_step_name (d : Option (List String)) (e : RecEntry) :
    (day_step d e).name = e.name := by
  cases d with
  | none => rfl
  | some rows =>
    rw [day_step_some]
    by_cases h : present_on rows e.s_number = true
    · rw [if_pos h]
    · rw [if_neg h]

theorem fold_step_s_number (days : List (Option (List String))) :
    ∀ e : RecEntry,
      (days.foldl (fun x d => day_step d x) e).s_number = e.s_number := by
  induction days with
  | nil => intro e; rfl
  | cons d ds ih =>
    intro e
    rw [List.foldl_cons, ih (day_step d e), day_step_s_number]

theorem fold_step_counts (days : List (Option (List String)))
    (hdays : ∀ d ∈ days, d.isSome = true) :
    ∀ e : RecEntry,
      (days.foldl (fun x d => day_step d x) e).present_count
        + (days.foldl (fun x d => day_step d x) e).absent_count
      = e.present_count + e.absent_count + days.length := by
  induction days with
  | nil => intro e; rfl
  | cons d ds ih =>
    intro e
    rw [List.foldl_cons]
    have hd : d.isSome = true := hdays d (List.mem_cons_self d ds)
    obtain ⟨rows, rfl⟩ := Option.isSome_iff_exists.mp hd
    have ih2 := ih (fun d hd => hdays d (List.mem_cons_of_mem _ hd)) (day_step (some rows) e)
    rw [ih2, day_step_some]
    by_cases h : present_on rows e.s_number = true
    · rw [if_pos h]
      simp only [List.length_cons]
      omega
    · rw [if_neg h]
      simp only [List.length_cons]
      omega

theorem mem_dict_insert (e : RecEntry) :
    ∀ (recs : List RecEntry) (x : RecEntry),
      x ∈ dict_insert e recs → x = e ∨ x ∈ recs := by
  intro recs
  induction recs with
  | nil =>
    intro x hx
    rw [dict_insert] at hx
    exact Or.inl (List.mem_singleton.mp hx)
  | cons f rest ih =>
    intro x hx
    rw [dict_insert] at hx
    by_cases hfe : f.s_number = e.s_number
    · rw [if_pos hfe] at hx
      rcases List.mem_cons.mp hx with h | h
      · exact Or.inl h
      · exact Or.inr (List.mem_cons_of_mem f h)
    · rw [if_neg hfe] at hx
      rcases List.mem_cons.mp hx with h | h
      · exact Or.inr (h ▸ List.mem_cons_self f rest)
      · rcases ih x h with h2 | h2
        · exact Or.inl h2
        · exact Or.inr (List.mem_cons_of_mem f h2)

theorem key_self_dict_insert (e : RecEntry) :
    ∀ recs : List RecEntry, ∃ x ∈ dict_insert e recs, x.s_number = e.s_number := by
  intro recs
  induction recs with
  | nil => exact ⟨e, List.mem_singleton_self e, rfl⟩
  | cons f rest ih =>
    rw [dict_insert]
    by_cases hfe : f.s_number = e.s_number
    · rw [if_pos hfe]
      exact ⟨e, List.mem_cons_self e rest, rfl⟩
    · rw [if_neg hfe]
      obtain ⟨x, hx, hk⟩ := ih
      exact ⟨x, List.mem_cons_of_mem f hx, hk⟩

theorem key_mem_dict_insert (e : RecEntry) :
    ∀ (recs : List RecEntry) (k : String),
      (∃ x ∈ recs, x.s_number = k) →
      ∃ x ∈ dict_insert e recs, x.s_number = k := by
  intro recs
  induction recs with
  | nil =>
    rintro k ⟨x, hx, -⟩
    exact absurd hx (List.not_mem_nil x)
  | cons f rest ih =>
    rintro k ⟨x, hx, hk⟩
    rw [dict_insert]
    by_cases hfe : f.s_number = e.s_number
    · rw [if_pos hfe]
      rcases List.mem_cons.mp hx with h | h
      · exact ⟨e, List.mem_cons_self e rest, by rw [← hfe, ← h, hk]⟩
      · exact ⟨x, List.mem_cons_of_mem e h, hk⟩
    · rw [if_neg hfe]
      rcases List.mem_cons.mp hx with h | h
      · exact ⟨f, List.mem_cons_self f _, by rw [← h, hk]⟩
      · obtain ⟨y, hy, hyk⟩ := ih k ⟨x, h, hk⟩
        exact ⟨y, List.mem_cons_of_mem f hy, hyk⟩

theorem foldl_dict_insert_mem (roster : List Student) :
    ∀ (acc : List RecEntry) (x : RecEntry),
      x ∈ roster.foldl
          (fun recs st => dict_insert ⟨st.name, st.sNumber, 0, 0⟩ recs) acc →
      x ∈ acc ∨ ∃ st ∈ roster, x = ⟨st.name, st.sNumber, 0, 0⟩ := by
  induction roster with
  | nil =>
    intro acc x hx
    exact Or.inl hx
  | cons st sts ih =>
    intro acc x hx
    rw [List.foldl_cons] at hx
    rcases ih (dict_insert ⟨st.name, st.sNumber, 0, 0⟩ acc) x hx with h | ⟨st2, hst2, hx2⟩
    · rcases mem_dict_insert _ acc x h with h2 | h2
      · exact Or.inr ⟨st, List.mem_cons_self st sts, h2⟩
      · exact Or.inl h2
    · exact Or.inr ⟨st2, List.mem_cons_of_mem st hst2, hx2⟩

theorem init_records_mem (roster : List Student) (x : RecEntry)
    (hx : x ∈ init_records roster) :
    ∃ st ∈ roster, x = ⟨st.name, st.sNumber, 0, 0⟩ := by
  rcases foldl_dict_insert_mem roster [] x hx with h | h
  · exact absurd h (List.not_mem_nil x)
  · exact h

theorem foldl_dict_insert_covers (roster : List Student) :
    ∀ (acc : List RecEntry) (k : String),
      ((∃ x ∈ acc, x.s_number = k) ∨ ∃ st ∈ roster, st.sNumber = k) →
      ∃ x ∈ roster.foldl
          (fun recs st => dict_insert ⟨st.name, st.sNumber, 0, 0⟩ recs) acc,
        x.s_number = k := by
  induction roster with
  | nil =>
    rintro acc k (h | ⟨st, hst, -⟩)
    · exact h
    · exact absurd hst (List.not_mem_nil st)
  | cons st sts ih =>
    rintro acc k (⟨x, hx, hk⟩ | ⟨st2, hst2, hk⟩)
    · rw [List.foldl_cons]
      exact ih _ k (Or.inl (key_mem_dict_insert _ acc k ⟨x, hx, hk⟩))
    · rw [List.foldl_cons]
      rcases List.mem_cons.mp hst2 with h | h
      · subst h
        exact ih _ k (Or.inl (hk ▸ key_self_dict_insert ⟨st2.name, st2.sNumber, 0, 0⟩ acc))
      · exact ih _ k (Or.inr ⟨st2, h, hk⟩)

theorem init_records_covers (roster : List Student) (st : Student)
    (hst : st ∈ roster) :
    ∃ x ∈ init_records roster, x.s_number = st.sNumber :=
  foldl_dict_insert_covers roster [] st.sNumber (Or.inr ⟨st, hst, rfl⟩)

theorem insert_by_name_perm (x : StudentStat) :
    ∀ l : List StudentStat, List.Perm (insert_by_name x l) (x :: l) := by
  intro l
  induction l with
  | nil => exact List.Perm.refl _
  | cons y ys ih =>
    rw [insert_by_name]
    by_cases h : y.name ≤ x.name
    · rw [if_pos h]
      exact (ih.cons y).trans (List.Perm.swap x y ys)
    · rw [if_neg h]

theorem sort_by_name_perm (l : List StudentStat) :
    List.Perm (sort_by_name l) l := by
  have haux : ∀ (l acc : List StudentStat),
      List.Perm (l.foldl (fun a x => insert_by_name x a) acc) (acc ++ l) := by
    intro l
    induction l with
    | nil =>
      intro acc
      rw [List.append_nil]
      exact List.Perm.refl _
    | cons x xs ih =>
      intro acc
      rw [List.foldl_cons]
      refine ((ih (insert_by_name x acc)).trans ?_)
      refine ((insert_by_name_perm x acc).append_right xs).trans ?_
      exact List.perm_middle.symm
  have h := haux l []
  rw [List.nil_append] at h
  exact h

theorem calculate_analytics_students_eq (roster : List Student)
    (days : List (Option (List String))) :
    (calculate_analytics roster days).students
      = sort_by_name
        ((days.foldl (fun r d => apply_day d r) (init_records roster)).map
          (fun e =>
            { name := e.name, s_number := e.s_number,
              present_count := e.present_count,
              absent_count := e.absent_count,
              attendance_rate :=
                if 0 < days.length then
                  ((e.present_count : ℚ) / (days.length : ℚ)) * 100
                else 0 })) := rfl

theorem calculate_analytics_avg_eq (roster : List Student)
    (days : List (Option (List String))) :
    (calculate_analytics roster days).avg_attendance
      = if 0 < roster.length then
          (((days.foldl (fun r d => apply_day d r) (init_records roster)).map
            (fun e =>
              ({ name := e.name, s_number := e.s_number,
                 present_count := e.present_count,
                 absent_count := e.absent_count,
                 attendance_rate :=
                   if 0 < days.length then
                     ((e.present_count : ℚ) / (days.length : ℚ)) * 100
                   else 0 } : StudentStat))).map
            (fun s => s.attendance_rate)).sum / (roster.length : ℚ)
        else 0 := rfl

theorem calculate_analytics_students_mem (roster : List Student)
    (days : List (Option (List String))) (e : StudentStat) :
    e ∈ (calculate_analytics roster days).students
      ↔ ∃ e0 ∈ days.foldl (fun r d => apply_day d r) (init_records roster),
          e = { name := e0.name, s_number := e0.s_number,
                present_count := e0.present_count,
                absent_count := e0.absent_count,
                attendance_rate :=
                  if 0 < days.length then
                    ((e0.present_count : ℚ) / (days.length : ℚ)) * 100
                  else 0 } := by
  rw [calculate_analytics_students_eq, (sort_by_name_perm _).mem_iff,
    List.mem_map]
  constructor
  · rintro ⟨e0, h, rfl⟩
    exact ⟨e0, h, rfl⟩
  · rintro ⟨e0, h, rfl⟩
    exact ⟨e0, h, rfl⟩

/-- **C4** — Analyzer totals: over `d` existing day-ledgers, every roster
member gets an entry with `present_count + absent_count = d` and
`attendance_rate = 100·present/d` (`0` when `d = 0`), and `avg_attendance` is
the sum of the reported rates divided by the roster size (`0` for an empty
roster) — total functions, never an error or NaN. -/
theorem analyzer_totals (roster : List Student)
    (days : List (Option (List String)))
    (hdays : ∀ d ∈ days, d.isSome = true) :
    (calculate_analytics roster days).total_sessions = days.length
    ∧ (∀ st ∈ roster, ∃ e ∈ (calculate_analytics roster days).students,
        e.s_number = st.sNumber
        ∧ e.present_count + e.absent_count = days.length
        ∧ e.attendance_rate = (if days.length = 0 then 0
            else 100 * (e.present_count : ℚ) / (days.length : ℚ)))
    ∧ (calculate_analytics roster days).avg_attendance
        = (if roster.length = 0 then 0
           else ((calculate_analytics roster days).students.map
              (fun e => e.attendance_rate)).sum / (roster.length : ℚ))
    ∧ (days.length = 0 →
        ∀ e ∈ (calculate_analytics roster days).students,
          e.attendance_rate = 0) := by
  refine ⟨rfl, ?_, ?_, ?_⟩
  · intro st hst
    obtain ⟨e0, he0, hk0⟩ := init_records_covers roster st hst
    have hrecs := fold_days_eq_map days (init_records roster)
    refine ⟨{ name := (days.foldl (fun x d => day_step d x) e0).name,
              s_number := (days.foldl (fun x d => day_step d x) e0).s_number,
              present_count := (days.foldl (fun x d => day_step d x) e0).present_count,
              absent_count := (days.foldl (fun x d => day_step d x) e0).absent_count,
              attendance_rate :=
                if 0 < days.length then
                  (((days.foldl (fun x d => day_step d x) e0).present_count : ℚ)
                    / (days.length : ℚ)) * 100
                else 0 }, ?_, ?_, ?_, ?_⟩
    · rw [calculate_analytics_students_mem]
      refine ⟨days.foldl (fun x d => day_step d x) e0, ?_, rfl⟩
      rw [hrecs]
      exact List.mem_map_of_mem _ he0
    · show (days.foldl (fun x d => day_step d x) e0).s_number = st.sNumber
      rw [fold_step_s_number days e0]
      exact hk0
    · show (days.foldl (fun x d => day_step d x) e0).present_count
          + (days.foldl (fun x d => day_step d x) e0).absent_count = days.length
      rw [fold_step_counts days hdays e0]
      obtain ⟨st2, -, rfl⟩ := init_records_mem roster e0 he0
      simp
    · by_cases hlen : days.length = 0
      · rw [if_pos hlen]
        show (if 0 < days.length then _ else (0 : ℚ)) = 0
        rw [if_neg (by omega)]
      · rw [if_neg hlen]
        show (if 0 < days.length then
            (((days.foldl (fun x d => day_step d x) e0).present_count : ℚ)
              / (days.length : ℚ)) * 100 else 0) = _
        rw [if_pos (by omega), div_mul_eq_mul_div, mul_comm]
  · rw [calculate_analytics_avg_eq, calculate_analytics_students_eq]
    have hsum :
        ((sort_by_name
          ((days.foldl (fun r d => apply_day d r) (init_records roster)).map
            (fun e =>
              ({ name := e.name, s_number := e.s_number,
                 present_count := e.present_count,
                 absent_count := e.absent_count,
                 attendance_rate :=
                   if 0 < days.length then
                     ((e.present_count : ℚ) / (days.length : ℚ)) * 100
                   else 0 } : StudentStat)))).map
          (fun s => s.attendance_rate)).sum
        = (((days.foldl (fun r d => apply_day d r) (init_records roster)).map
            (fun e =>
              ({ name := e.name, s_number := e.s_number,
                 present_count := e.present_count,
                 absent_count := e.absent_count,
                 attendance_rate :=
                   if 0 < days.length then
                     ((e.present_count : ℚ) / (days.length : ℚ)) * 100
                   else 0 } : StudentStat))).map
            (fun s => s.attendance_rate)).sum :=
      ((sort_by_name_perm _).map (fun s => s.attendance_rate)).sum_eq
    rw [hsum]
    by_cases hn : roster.length = 0
    · rw [if_neg (by omega), if_pos hn]
    · rw [if_pos (by omega), if_neg hn]
  · intro hlen e he
    rw [calculate_analytics_students_mem] at he
    obtain ⟨e0, -, rfl⟩ := he
    show (if 0 < days.length then _ else (0 : ℚ)) = 0
    rw [if_neg (by omega)]

/-- **C4 witness**: the spec's concrete scenario — Ada present both days, Bob
one of two — instantiated through the theorem. -/
theorem analyzer_totals_witness :
    (calculate_analytics [⟨"Ada", "101"⟩, ⟨"Bob", "102"⟩]
        [some ["101"], some ["101", "102"]]).total_sessions
      = ([some ["101"], some ["101", "102"]] : List (Option (List String))).length
    ∧ (∀ st ∈ [(⟨"Ada", "101"⟩ : Student), ⟨"Bob", "102"⟩],
        ∃ e ∈ (calculate_analytics [⟨"Ada", "101"⟩, ⟨"Bob", "102"⟩]
            [some ["101"], some ["101", "102"]]).students,
          e.s_number = st.sNumber
          ∧ e.present_count + e.absent_count
              = ([some ["101"], some ["101", "102"]] : List (Option (List String))).length
          ∧ e.attendance_rate
              = (if ([some ["101"], some ["101", "102"]] :
                    List (Option (List String))).length = 0 then 0
                 else 100 * (e.present_count : ℚ)
                   / (([some ["101"], some ["101", "102"]] :
                       List (Option (List String))).length : ℚ)))
    ∧ (calculate_analytics [⟨"Ada", "101"⟩, ⟨"Bob", "102"⟩]
          [some ["101"], some ["101", "102"]]).avg_attendance
        = (if ([(⟨"Ada", "101"⟩ : Student), ⟨"Bob", "102"⟩] : List Student).length = 0
           then 0
           else ((calculate_analytics [⟨"Ada", "101"⟩, ⟨"Bob", "102"⟩]
              [some ["101"], some ["101", "102"]]).students.map
                (fun e => e.attendance_rate)).sum
              / (([(⟨"Ada", "101"⟩ : Student), ⟨"Bob", "102"⟩] : List Student).length : ℚ))
    ∧ (([some ["101"], some ["101", "102"]] :
          List (Option (List String))).length = 0 →
        ∀ e ∈ (calculate_analytics [⟨"Ada", "101"⟩, ⟨"Bob", "102"⟩]
            [some ["101"], some ["101", "102"]]).students,
          e.attendance_rate = 0) :=
  analyzer_totals [⟨"Ada", "101"⟩, ⟨"Bob", "102"⟩]
    [some ["101"], some ["101", "102"]] (by decide)

theorem present_on_filter (rows : List String) (x k : String) (hk : k ≠ x) :
    present_on (rows.filter (fun row => ¬ (row ≠ "" ∧ pyStrip row = x))) k
      = present_on rows k := by
  unfold present_on
  rw [List.any_filter, Bool.eq_iff_iff]
  simp only [List.any_eq_true, Bool.and_eq_true, decide_eq_true_eq]
  constructor
  · rintro ⟨r, hr, -, h2⟩
    exact ⟨r, hr, h2⟩
  · rintro ⟨r, hr, h2⟩
    refine ⟨r, hr, ?_, h2⟩
    rintro ⟨-, hx2⟩
    exact hk (by rw [← h2.2, hx2])

theorem apply_day_filter_eq (x : String) (d : Option (List String))
    (recs : List RecEntry) (hkeys : ∀ e ∈ recs, e.s_number ≠ x) :
    apply_day (d.map (List.filter (fun row => ¬ (row ≠ "" ∧ pyStrip row = x)))) recs
      = apply_day d recs := by
  cases d with
  | none => rfl
  | some rows =>
    rw [Option.map_some', apply_day_eq_map, apply_day_eq_map]
    apply List.map_congr_left
    intro e he
    rw [day_step_some, day_step_some,
      present_on_filter rows x e.s_number (hkeys e he)]

theorem apply_day_keys (d : Option (List String)) (recs : List RecEntry)
    (x : String) (hkeys : ∀ e ∈ recs, e.s_number ≠ x) :
    ∀ e ∈ apply_day d recs, e.s_number ≠ x := by
  intro e he
  rw [apply_day_eq_map] at he
  obtain ⟨e0, he0, rfl⟩ := List.mem_map.mp he
  rw [day_step_s_number]
  exact hkeys e0 he0

theorem fold_days_filter_eq (x : String) (days : List (Option (List String))) :
    ∀ recs : List RecEntry, (∀ e ∈ recs, e.s_number ≠ x) →
      (days.map (Option.map
          (List.filter (fun row => ¬ (row ≠ "" ∧ pyStrip row = x))))).foldl
          (fun r d => apply_day d r) recs
        = days.foldl (fun r d => apply_day d r) recs := by
  induction days with
  | nil =>
    intro recs _
    rfl
  | cons d ds ih =>
    intro recs hkeys
    rw [List.map_cons, List.foldl_cons, List.foldl_cons,
      apply_day_filter_eq x d recs hkeys]
    exact ih (apply_day d recs) (apply_day_keys d recs x hkeys)

theorem fold_days_keys (days : List (Option (List String))) (x : String) :
    ∀ recs : List RecEntry, (∀ e ∈ recs, e.s_number ≠ x) →
      ∀ e ∈ days.foldl (fun r d => apply_day d r) recs, e.s_number ≠ x := by
  induction days with
  | nil =>
    intro recs h
    exact h
  | cons d ds ih =>
    intro recs h
    rw [List.foldl_cons]
    exact ih (apply_day d recs) (apply_day_keys d recs x h)

theorem init_records_keys (roster : List Student) (x : String)
    (hx : ∀ st ∈ roster, st.sNumber ≠ x) :
    ∀ e ∈ init_records roster, e.s_number ≠ x := by
  intro e he
  obtain ⟨st, hst, rfl⟩ := init_records_mem roster e he
  exact hx st hst

/-- **C9** — Roster-driven analysis: a ledger id that does not belong to any
current roster member contributes nothing — deleting every ledger row that
strips to that id leaves the whole analytics output unchanged, and no
per-member entry carries that id. -/
theorem analyzer_roster_driven (roster : List Student)
    (days : List (Option (List String))) (x : String)
    (hx : ∀ st ∈ roster, st.sNumber ≠ x) :
    calculate_analytics roster
        (days.map (Option.map
          (List.filter (fun row => ¬ (row ≠ "" ∧ pyStrip row = x)))))
      = calculate_analytics roster days
    ∧ ∀ e ∈ (calculate_analytics roster days).students, e.s_number ≠ x := by
  constructor
  · have hfold := fold_days_filter_eq x days (init_records roster)
      (init_records_keys roster x hx)
    simp only [calculate_analytics, List.length_map, hfold]
  · intro e he
    rw [calculate_analytics_students_mem] at he
    obtain ⟨e0, he0, rfl⟩ := he
    show e0.s_number ≠ x
    exact fold_days_keys days x (init_records roster)
      (init_records_keys roster x hx) e0 he0

/-- **C9 witness**: id `"999"` appears in the ledgers but not in the roster;
removing it changes nothing and no entry reports it. -/
theorem analyzer_roster_driven_witness :
    calculate_analytics [⟨"Ada", "101"⟩]
        (([some ["101", "999"], some ["999"]] :
            List (Option (List String))).map (Option.map
          (List.filter (fun row => ¬ (row ≠ "" ∧ pyStrip row = "999")))))
      = calculate_analytics [⟨"Ada", "101"⟩]
          [some ["101", "999"], some ["999"]]
    ∧ ∀ e ∈ (calculate_analytics [⟨"Ada", "101"⟩]
        [some ["101", "999"], some ["999"]]).students, e.s_number ≠ "999" :=
  analyzer_roster_driven [⟨"Ada", "101"⟩] [some ["101", "999"], some ["999"]]
    "999" (by decide)

end HRCheckIn
